import Mathlib

/-!
Shallow embedding of the transformer-car demo's core logic.

Sources:
* `src/unnamed/part_000` — `CONTROLS_CONFIG`, `VehicleController.useFrame`
  (velocity/steering/banking integration) and `App` (mode/door state machine).
* `src/unnamed/part_001` — `TransformerPart.useFrame` (per-part target pose
  selection, exponential position/orientation smoothing, secondary rotations).

Numeric constants from the source are exact decimals and are embedded as the
corresponding rationals (0.02 = 1/50, 0.95 = 19/20, 0.8 = 4/5, 0.04 = 1/25,
0.4 = 2/5, 0.1 = 1/10, 0.01 = 1/100).
-/

namespace CarTransformer

/-- The three vehicle modes: `mode : 'car' | 'flight' | 'robot'` in the source. -/
inductive Mode where
  | car
  | flight
  | robot
deriving DecidableEq, Repr, Fintype

/-- `const isRobot = mode === 'robot'` in `VehicleController.useFrame`. -/
def isRobot (m : Mode) : Bool :=
  match m with
  | Mode.robot => true
  | _ => false

/-- `const isFlight = mode === 'flight'` in `VehicleController.useFrame`. -/
def isFlight (m : Mode) : Bool :=
  match m with
  | Mode.flight => true
  | _ => false

/-- `CONTROLS_CONFIG.acceleration = 0.02`. -/
def acceleration : ℚ := 1/50

/-- `CONTROLS_CONFIG.deceleration = 0.95`. -/
def deceleration : ℚ := 19/20

/-- `CONTROLS_CONFIG.maxSpeed = 0.8`. -/
def maxSpeed : ℚ := 4/5

/-- `CONTROLS_CONFIG.turnSpeed = 0.04`. -/
def turnSpeed : ℚ := 1/25

/-- The held-key map sampled each frame, reduced to the four logical
directions read in `VehicleController.useFrame`
(`isMovingForward`, `isMovingBackward`, `isTurningLeft`, `isTurningRight`). -/
structure Keys where
  forward : Bool
  backward : Bool
  left : Bool
  right : Bool
deriving DecidableEq, Repr, Fintype

/-- `const currentAccel = isRobot ? CONTROLS_CONFIG.acceleration * 0.5
: CONTROLS_CONFIG.acceleration`. -/
def currentAccel (m : Mode) : ℚ :=
  if isRobot m then acceleration * (1/2) else acceleration

/-- `const currentMaxSpeed = isFlight ? maxSpeed * 1.5 : isRobot ?
maxSpeed * 0.4 : maxSpeed`. -/
def currentMaxSpeed (m : Mode) : ℚ :=
  if isFlight m then maxSpeed * (3/2)
  else if isRobot m then maxSpeed * (2/5)
  else maxSpeed

/-- The velocity update of `VehicleController.useFrame` step 1:
`if (isMovingForward) velocity = Math.min(velocity + currentAccel, currentMaxSpeed);
else if (isMovingBackward) velocity = Math.max(velocity - currentAccel, -currentMaxSpeed * 0.5);
else velocity *= CONTROLS_CONFIG.deceleration;`. -/
def stepVelocity (m : Mode) (k : Keys) (v : ℚ) : ℚ :=
  if k.forward then min (v + currentAccel m) (currentMaxSpeed m)
  else if k.backward then max (v - currentAccel m) (-(currentMaxSpeed m) * (1/2))
  else v * deceleration

/-- `const steerEffect = (isFlight || isRobot || Math.abs(velocity) > 0.01)
? (velocity >= 0 ? 1 : -1) : 0`. -/
def steerEffect (m : Mode) (v : ℚ) : ℚ :=
  if isFlight m || isRobot m || decide (|v| > 1/100) then
    (if v ≥ 0 then 1 else -1)
  else 0

/-- `const currentTurnSpeed = isFlight ? turnSpeed * 1.2 : isRobot ?
turnSpeed * 0.8 : turnSpeed`. -/
def currentTurnSpeed (m : Mode) : ℚ :=
  if isFlight m then turnSpeed * (6/5)
  else if isRobot m then turnSpeed * (4/5)
  else turnSpeed

/-- The heading update of `VehicleController.useFrame` step 2:
`if (isTurningLeft) rotY += currentTurnSpeed * steerEffect;
if (isTurningRight) rotY -= currentTurnSpeed * steerEffect;`. -/
def stepHeading (m : Mode) (k : Keys) (v rotY : ℚ) : ℚ :=
  let r1 := if k.left then rotY + currentTurnSpeed m * steerEffect m v else rotY
  if k.right then r1 - currentTurnSpeed m * steerEffect m v else r1

/-- `THREE.MathUtils.lerp(x, y, t) = x + (y - x) * t`. -/
def lerp (x y t : ℚ) : ℚ := x + (y - x) * t

/-- `const targetBanking = isFlight ? (isTurningLeft ? 0.4 : isTurningRight
? -0.4 : 0) : 0`. -/
def targetBanking (m : Mode) (k : Keys) : ℚ :=
  if isFlight m then
    (if k.left then 2/5 else if k.right then -(2/5) else 0)
  else 0

/-- `banking = THREE.MathUtils.lerp(banking, targetBanking, 0.1)`. -/
def stepBanking (m : Mode) (k : Keys) (b : ℚ) : ℚ :=
  lerp b (targetBanking m k) (1/10)

/-- Iterated velocity decay: the velocity after `n` consecutive frames in
which neither movement key is held (each such frame runs the
`velocity *= deceleration` branch of `stepVelocity`). -/
def coast (m : Mode) : ℕ → ℚ → ℚ
  | 0, v => v
  | n + 1, v => stepVelocity m ⟨false, false, false, false⟩ (coast m n v)

/-! ### Mode/door state machine (`App` in `src/unnamed/part_000`) -/

/-- The discrete UI state of `App`: `useState` pair `mode` and `doorOpen`. -/
structure AppState where
  mode : Mode
  doorOpen : Bool
deriving DecidableEq, Repr, Fintype

/-- `toggleTransform`: `setMode(prev => prev === 'robot' ? 'car' : 'robot');
setDoorOpen(false);`. -/
def toggleTransform (s : AppState) : AppState :=
  { mode := if s.mode = Mode.robot then Mode.car else Mode.robot
    doorOpen := false }

/-- `toggleFlight`: `setMode(prev => prev === 'flight' ? 'car' : 'flight');
setDoorOpen(false);`. -/
def toggleFlight (s : AppState) : AppState :=
  { mode := if s.mode = Mode.flight then Mode.car else Mode.flight
    doorOpen := false }

/-- `toggleDoor`: `if (mode === 'car') setDoorOpen(prev => !prev);`. -/
def toggleDoor (s : AppState) : AppState :=
  if s.mode = Mode.car then { s with doorOpen := !s.doorOpen } else s

/-- The three user commands issued by the UI buttons. -/
inductive Cmd where
  | robot
  | flight
  | door
deriving DecidableEq, Repr, Fintype

/-- Dispatch one command to its handler. -/
def applyCmd (c : Cmd) (s : AppState) : AppState :=
  match c with
  | Cmd.robot => toggleTransform s
  | Cmd.flight => toggleFlight s
  | Cmd.door => toggleDoor s

/-- Run a command sequence from a state, oldest command first. -/
def runCmds (s : AppState) : List Cmd → AppState
  | [] => s
  | c :: cs => runCmds (applyCmd c s) cs

/-- `useState<'car'|'flight'|'robot'>('car')`, `useState(false)`. -/
def initState : AppState := ⟨Mode.car, false⟩

/-! ### Part transform animator (`TransformerPart.useFrame` in
`src/unnamed/part_001`) -/

/-- A 3-vector with rational coordinates, modelling `THREE.Vector3` for
the exact-decimal pose data and lerp arithmetic of the animator. -/
structure V3 where
  x : ℚ
  y : ℚ
  z : ℚ
deriving DecidableEq, Repr

/-- `THREE.Vector3.lerp(v, alpha)`: each coordinate moves by
`(v.c - this.c) * alpha`. -/
def V3.lerpTo (p target : V3) (alpha : ℚ) : V3 :=
  ⟨p.x + (target.x - p.x) * alpha,
   p.y + (target.y - p.y) * alpha,
   p.z + (target.z - p.z) * alpha⟩

/-- Squared Euclidean distance between two `V3`s. -/
def distSq (p q : V3) : ℚ :=
  (p.x - q.x) ^ 2 + (p.y - q.y) ^ 2 + (p.z - q.z) ^ 2

/-- `const lerpSpeed = 4 * delta` in `TransformerPart.useFrame`. -/
def lerpSpeed (delta : ℚ) : ℚ := 4 * delta

/-- The per-frame position update of `TransformerPart.useFrame`:
`groupRef.current.position.lerp(targetP, lerpSpeed)`. -/
def partStepPosition (p target : V3) (delta : ℚ) : V3 :=
  V3.lerpTo p target (lerpSpeed delta)

/-- Target position selection of `TransformerPart.useFrame`:
`let targetP = new THREE.Vector3().fromArray(carPos);
if (isRobot) targetP.fromArray(robotPos);
else if (isFlight) targetP.fromArray(flightPos || carPos);`.
`flightPos` is an optional prop, hence `Option V3`. -/
def targetPosition (m : Mode) (carPos robotPos : V3) (flightPos : Option V3) : V3 :=
  if isRobot m then robotPos
  else if isFlight m then flightPos.getD carPos
  else carPos

/-- Target base orientation selection of `TransformerPart.useFrame`, at the
Euler-angle level (the source converts the selected Euler triple to a
quaternion with `setFromEuler`; the selection itself happens on the triple):
`qBase.setFromEuler(Euler(...carRot)); if (isRobot) ...robotRot;
else if (isFlight) ...(flightRot || carRot);`. -/
def targetEuler (m : Mode) (carRot robotRot : V3) (flightRot : Option V3) : V3 :=
  if isRobot m then robotRot
  else if isFlight m then flightRot.getD carRot
  else carRot

/-- `pat` is a prefix of `hay` (character lists). -/
def charsStart : List Char → List Char → Bool
  | [], _ => true
  | _ :: _, [] => false
  | p :: ps, h :: hs => p = h && charsStart ps hs

/-- `pat` occurs as a contiguous substring of `hay` (character lists). -/
def charsHave (pat : List Char) : List Char → Bool
  | [] => charsStart pat []
  | h :: hs => charsStart pat (h :: hs) || charsHave pat hs

/-- JS `String.prototype.includes`, used as `partType.includes('door')`. -/
def stringIncludes (s pat : String) : Bool := charsHave pat.data s.data

/-- The secondary ("dynamic") rotation `dynamicQ` built by
`TransformerPart.useFrame`, abstracted to which rotation is written:
`flap sign` is `Euler(0, 0, ±(π/4 + sin(time·10)·0.8))` (sign `true` for
`door_left`), `scissor sign` is `Euler(0, 0, ±(π/2.2))`, and `spin w` is
`Euler(w, 0, 0)` with `w` the accumulated wheel rotation. `ident` is the
identity quaternion `dynamicQ` is initialised with. -/
inductive DynRot where
  | ident
  | flap (leftSide : Bool)
  | scissor (leftSide : Bool)
  | spin (w : ℚ)
deriving DecidableEq, Repr

/-- The control flow of `TransformerPart.useFrame` that assigns `dynamicQ`:
the `partType.includes('door')` block (flapping in flight, scissor opening
when `doorOpen`), then the `partType === 'wheel'` block, which overwrites
`dynamicQ` with the spin rotation only when `!isRobot`. -/
def dynamicRot (partType : String) (isFlightB isRobotB doorOpenB : Bool)
    (wheelRotation : ℚ) : DynRot :=
  let q0 := DynRot.ident
  let q1 :=
    if stringIncludes partType "door" then
      if isFlightB then
        if partType = "door_left" then DynRot.flap true
        else if partType = "door_right" then DynRot.flap false
        else q0
      else if doorOpenB then
        if partType = "door_left" then DynRot.scissor true
        else if partType = "door_right" then DynRot.scissor false
        else q0
      else q0
    else q0
  if partType = "wheel" then
    if !isRobotB then DynRot.spin wheelRotation else q1
  else q1

/-! ### Helper lemmas -/

/-- `distSq` is a sum of squares, hence nonnegative. -/
theorem distSq_nonneg (p q : V3) : 0 ≤ distSq p q := by
  unfold distSq
  positivity

/-- `distSq` vanishes exactly on equal vectors. -/
theorem distSq_eq_zero_iff (p q : V3) : distSq p q = 0 ↔ p = q := by
  constructor
  · intro h
    unfold distSq at h
    have hx : (p.x - q.x) ^ 2 = 0 :=
      le_antisymm (by nlinarith [sq_nonneg (p.y - q.y), sq_nonneg (p.z - q.z)]) (sq_nonneg _)
    have hy : (p.y - q.y) ^ 2 = 0 :=
      le_antisymm (by nlinarith [sq_nonneg (p.x - q.x), sq_nonneg (p.z - q.z)]) (sq_nonneg _)
    have hz : (p.z - q.z) ^ 2 = 0 :=
      le_antisymm (by nlinarith [sq_nonneg (p.x - q.x), sq_nonneg (p.y - q.y)]) (sq_nonneg _)
    have ex := sub_eq_zero.mp (pow_eq_zero_iff (n := 2) (by norm_num) |>.mp hx)
    have ey := sub_eq_zero.mp (pow_eq_zero_iff (n := 2) (by norm_num) |>.mp hy)
    have ez := sub_eq_zero.mp (pow_eq_zero_iff (n := 2) (by norm_num) |>.mp hz)
    cases p
    cases q
    simp_all
  · intro h
    subst h
    unfold distSq
    ring

/-- A convex combination `a + (b - a) * α` with `α ∈ [0, 1]` stays between
`a` and `b`. -/
theorem lerp_between (a b α : ℚ) (h0 : 0 ≤ α) (h1 : α ≤ 1) :
    min a b ≤ a + (b - a) * α ∧ a + (b - a) * α ≤ max a b := by
  rcases le_total a b with h | h
  · rw [min_eq_left h, max_eq_right h]
    constructor <;> nlinarith
  · rw [min_eq_right h, max_eq_left h]
    constructor <;> nlinarith

/-- When neither movement key is held, `stepVelocity` runs the
`velocity *= deceleration` branch. -/
theorem stepVelocity_coast (m : Mode) (k : Keys) (v : ℚ)
    (hf : k.forward = false) (hb : k.backward = false) :
    stepVelocity m k v = v * (19/20) := by
  simp [stepVelocity, hf, hb, deceleration]

/-- Closed form of the coasting recursion. -/
theorem coast_eq (m : Mode) (v : ℚ) : ∀ n, coast m n v = v * (19/20) ^ n
  | 0 => by simp [coast]
  | n + 1 => by
    rw [coast, stepVelocity_coast m _ _ rfl rfl, coast_eq m v n]
    ring

/-- One command preserves the door invariant. -/
theorem doorInv_step : ∀ (c : Cmd) (s : AppState),
    (s.mode ≠ Mode.car → s.doorOpen = false) →
    ((applyCmd c s).mode ≠ Mode.car → (applyCmd c s).doorOpen = false) := by
  decide

/-- Any command run preserves the door invariant. -/
theorem doorInv_run : ∀ (cs : List Cmd) (s : AppState),
    (s.mode ≠ Mode.car → s.doorOpen = false) →
    ((runCmds s cs).mode ≠ Mode.car → (runCmds s cs).doorOpen = false)
  | [], _, hs => hs
  | c :: cs, s, hs => doorInv_run cs (applyCmd c s) (doorInv_step c s hs)

/-- `"wheel"` does not contain `"door"`. -/
theorem stringIncludes_wheel : stringIncludes "wheel" "door" = false := by decide

/-- `"door_left"` contains `"door"`. -/
theorem stringIncludes_door_left : stringIncludes "door_left" "door" = true := by decide

/-- `"door_right"` contains `"door"`. -/
theorem stringIncludes_door_right : stringIncludes "door_right" "door" = true := by decide

/-! ### Claims -/

/-- C1 (counterexample): the claim allows any prior velocity, but the
velocity update only clamps against the bound on the side being pushed:
with `Backward` held in Car mode from prior velocity `10`, the result is
`max(10 - 0.02, -0.4) = 9.98`, far above `maxSpeed(Car) = 0.8`. -/
theorem c1_counterexample :
    ¬ stepVelocity Mode.car ⟨false, true, false, false⟩ 10 ≤ currentMaxSpeed Mode.car := by
  norm_num [stepVelocity, currentMaxSpeed, currentAccel, maxSpeed, acceleration,
    isRobot, isFlight]

/-- C1 (amended): `maxSpeed(mode) > 0` with the stated per-mode values, and
whenever the prior velocity already lies in
`[-0.5·maxSpeed(mode), maxSpeed(mode)]` for the step's mode, the velocity
after one integration step (any combination of held keys) stays in that
interval. -/
theorem c1_velocity_clamped (m : Mode) (k : Keys) (v : ℚ)
    (hlo : -(currentMaxSpeed m) * (1/2) ≤ v) (hhi : v ≤ currentMaxSpeed m) :
    0 < currentMaxSpeed m ∧
    currentMaxSpeed Mode.car = 4/5 ∧
    currentMaxSpeed Mode.flight = 4/5 * (3/2) ∧
    currentMaxSpeed Mode.robot = 4/5 * (2/5) ∧
    -(currentMaxSpeed m) * (1/2) ≤ stepVelocity m k v ∧
    stepVelocity m k v ≤ currentMaxSpeed m := by
  have hM : 0 < currentMaxSpeed m := by
    cases m <;> norm_num [currentMaxSpeed, maxSpeed, isFlight, isRobot]
  have hA : 0 < currentAccel m ∧ currentAccel m ≤ 1/50 := by
    cases m <;> norm_num [currentAccel, acceleration, isRobot]
  refine ⟨hM, by norm_num [currentMaxSpeed, maxSpeed, isFlight, isRobot],
    by norm_num [currentMaxSpeed, maxSpeed, isFlight, isRobot],
    by norm_num [currentMaxSpeed, maxSpeed, isFlight, isRobot], ?_⟩
  unfold stepVelocity
  split
  · exact ⟨le_min (by linarith [hA.1]) (by linarith), min_le_right _ _⟩
  · split
    · exact ⟨le_max_right _ _, max_le (by linarith [hA.1]) (by linarith)⟩
    · unfold deceleration
      constructor <;> linarith

/-- C1 (witness): instantiation at Flight mode, Forward held, prior
velocity `1`. -/
theorem c1_velocity_clamped_witness :
    -(currentMaxSpeed Mode.flight) * (1/2) ≤ (1:ℚ) ∧ (1:ℚ) ≤ currentMaxSpeed Mode.flight ∧
    stepVelocity Mode.flight ⟨true, false, false, false⟩ 1 ≤ currentMaxSpeed Mode.flight := by
  have h1 : -(currentMaxSpeed Mode.flight) * (1/2) ≤ (1:ℚ) := by
    norm_num [currentMaxSpeed, maxSpeed, isFlight, isRobot]
  have h2 : (1:ℚ) ≤ currentMaxSpeed Mode.flight := by
    norm_num [currentMaxSpeed, maxSpeed, isFlight, isRobot]
  exact ⟨h1, h2,
    (c1_velocity_clamped Mode.flight ⟨true, false, false, false⟩ 1 h1 h2).2.2.2.2.2⟩

/-- C4: `toggleTransform` sends Car and Flight to Robot and Robot to Car;
`toggleFlight` sends Car and Robot to Flight and Flight to Car; and both
commands leave `doorOpen = false`, in particular on every transition out
of Car, regardless of its prior value. -/
theorem c4_mode_transitions :
    ∀ s : AppState,
      (s.mode = Mode.car → toggleTransform s = ⟨Mode.robot, false⟩) ∧
      (s.mode = Mode.flight → toggleTransform s = ⟨Mode.robot, false⟩) ∧
      (s.mode = Mode.robot → toggleTransform s = ⟨Mode.car, false⟩) ∧
      (s.mode = Mode.car → toggleFlight s = ⟨Mode.flight, false⟩) ∧
      (s.mode = Mode.robot → toggleFlight s = ⟨Mode.flight, false⟩) ∧
      (s.mode = Mode.flight → toggleFlight s = ⟨Mode.car, false⟩) := by
  decide

/-- C4 (witness): from Car with the door open, `toggleTransform` reaches
Robot with the door forced shut. -/
theorem c4_mode_transitions_witness :
    toggleTransform ⟨Mode.car, true⟩ = ⟨Mode.robot, false⟩ :=
  (c4_mode_transitions ⟨Mode.car, true⟩).1 rfl

/-- C8: `toggleDoor` outside Car mode changes nothing (mode and door both
unchanged); in Car mode it flips `doorOpen` and keeps the mode. -/
theorem c8_toggle_door :
    ∀ s : AppState,
      (s.mode ≠ Mode.car → toggleDoor s = s) ∧
      (s.mode = Mode.car →
        (toggleDoor s).mode = Mode.car ∧ (toggleDoor s).doorOpen = !s.doorOpen) := by
  decide

/-- C8 (witness): `toggleDoor` in Flight mode is a no-op, and in Car mode it
flips the door flag. -/
theorem c8_toggle_door_witness :
    toggleDoor ⟨Mode.flight, false⟩ = ⟨Mode.flight, false⟩ ∧
    (toggleDoor ⟨Mode.car, false⟩).doorOpen = true :=
  ⟨(c8_toggle_door ⟨Mode.flight, false⟩).1 (by decide),
   ((c8_toggle_door ⟨Mode.car, false⟩).2 rfl).2⟩

/-- C10: from the initial state (Car, door closed), every state reachable by
any sequence of the three commands satisfies: outside Car mode the door is
closed. -/
theorem c10_door_invariant (cs : List Cmd) :
    (runCmds initState cs).mode ≠ Mode.car → (runCmds initState cs).doorOpen = false :=
  doorInv_run cs initState (by decide)

/-- C10 (witness): after opening the door and then toggling to Robot, the
mode is not Car and the door is closed. -/
theorem c10_door_invariant_witness :
    (runCmds initState [Cmd.door, Cmd.robot]).mode ≠ Mode.car ∧
    (runCmds initState [Cmd.door, Cmd.robot]).doorOpen = false :=
  ⟨by decide, c10_door_invariant [Cmd.door, Cmd.robot] (by decide)⟩

/-- C5 (counterexample): the claim says the target bank angle is `0` when
both turn keys are held, but the source's nested conditional
`isTurningLeft ? 0.4 : isTurningRight ? -0.4 : 0` tests `isTurningLeft`
first, so with both keys held in Flight the target is `0.4`, not `0`. -/
theorem c5_counterexample :
    targetBanking Mode.flight ⟨false, false, true, true⟩ ≠ 0 := by
  norm_num [targetBanking, isFlight]

/-- C5 (amended): the target bank angle is nonzero only in Flight mode; in
Flight it is the positive fixed magnitude `0.4` whenever TurnLeft is held
(regardless of TurnRight), the negative magnitude `-0.4` when only
TurnRight is held, and `0` when neither is held; the actual bank angle
approaches the target exponentially (the error is scaled by `0.9` each
frame, the per-frame smoothing factor being `0.1`) and never reaches the
target in one step from a different value. -/
theorem c5_banking (m : Mode) (k : Keys) (b : ℚ) :
    (m ≠ Mode.flight → targetBanking m k = 0) ∧
    (m = Mode.flight → k.left = true →
      targetBanking m k = 2/5 ∧ 0 < targetBanking m k) ∧
    (m = Mode.flight → k.left = false → k.right = true →
      targetBanking m k = -(2/5) ∧ targetBanking m k < 0) ∧
    (m = Mode.flight → k.left = false → k.right = false → targetBanking m k = 0) ∧
    stepBanking m k b - targetBanking m k = (9/10) * (b - targetBanking m k) ∧
    (b ≠ targetBanking m k →
      stepBanking m k b ≠ targetBanking m k ∧
      |stepBanking m k b - targetBanking m k| < |b - targetBanking m k|) := by
  have heq : stepBanking m k b - targetBanking m k = (9/10) * (b - targetBanking m k) := by
    unfold stepBanking lerp
    ring
  refine ⟨?_, ?_, ?_, ?_, heq, ?_⟩
  · intro hm
    cases m <;> simp_all [targetBanking, isFlight]
  · rintro rfl hl
    norm_num [targetBanking, isFlight, hl]
  · rintro rfl hl hr
    norm_num [targetBanking, isFlight, hl, hr]
  · rintro rfl hl hr
    norm_num [targetBanking, isFlight, hl, hr]
  · intro hb
    have hne : b - targetBanking m k ≠ 0 := sub_ne_zero.mpr hb
    constructor
    · intro hcontra
      have h0 : stepBanking m k b - targetBanking m k = 0 := sub_eq_zero.mpr hcontra
      rw [heq] at h0
      rcases mul_eq_zero.mp h0 with h | h
      · norm_num at h
      · exact hne h
    · rw [heq, abs_mul]
      have h9 : |(9/10 : ℚ)| = 9/10 := by norm_num
      rw [h9]
      have h2 : 0 < |b - targetBanking m k| := abs_pos.mpr hne
      linarith

/-- C5 (witness): instantiation in Flight with only TurnLeft held, starting
bank `0`: the target is `0.4 > 0` and one smoothing step does not reach it. -/
theorem c5_banking_witness :
    targetBanking Mode.flight ⟨false, false, true, false⟩ = 2/5 ∧
    stepBanking Mode.flight ⟨false, false, true, false⟩ 0 ≠
      targetBanking Mode.flight ⟨false, false, true, false⟩ := by
  refine ⟨((c5_banking Mode.flight ⟨false, false, true, false⟩ 0).2.1 rfl rfl).1, ?_⟩
  have h := ((c5_banking Mode.flight ⟨false, false, true, false⟩ 0).2.2.2.2.2 ?_).1
  · exact h
  · rw [((c5_banking Mode.flight ⟨false, false, true, false⟩ 0).2.1 rfl rfl).1]
    norm_num

/-- C6: steering with zero velocity in Car mode changes nothing (for any
held keys, since `steerEffect` is `0` there); in Flight or Robot mode with
exactly one turn key held it does change the heading; `steerEffect` is
nonzero only when the mode is Flight or Robot or `|velocity|` exceeds the
threshold `0.01`; and for nonzero velocity an effective `steerEffect` has
the sign of the velocity. -/
theorem c6_steering (m : Mode) (k : Keys) (v rot : ℚ) :
    stepHeading Mode.car k 0 rot = rot ∧
    ((m = Mode.flight ∨ m = Mode.robot) → k.left ≠ k.right →
      stepHeading m k 0 rot ≠ rot) ∧
    (steerEffect m v ≠ 0 → (m = Mode.flight ∨ m = Mode.robot ∨ |v| > 1/100)) ∧
    (0 < v → steerEffect m v ≠ 0 → steerEffect m v = 1) ∧
    (v < 0 → steerEffect m v ≠ 0 → steerEffect m v = -1) := by
  refine ⟨?_, ?_, ?_, ?_, ?_⟩
  · cases hl : k.left <;> cases hr : k.right <;>
      norm_num [stepHeading, steerEffect, isFlight, isRobot, hl, hr]
  · intro hm hk
    rcases hm with rfl | rfl <;>
      cases hl : k.left <;> cases hr : k.right <;>
        simp_all [stepHeading, steerEffect, isFlight, isRobot, currentTurnSpeed, turnSpeed]
  · intro hne
    cases m with
    | car =>
      refine Or.inr (Or.inr ?_)
      by_contra hnot
      have h' : decide (|v| > 1/100) = false := decide_eq_false hnot
      exact hne (by simp only [steerEffect, isFlight, isRobot, h', Bool.false_or]; rfl)
    | flight => exact Or.inl rfl
    | robot => exact Or.inr (Or.inl rfl)
  · intro hv hne
    unfold steerEffect at hne ⊢
    by_cases hcond : (isFlight m || isRobot m || decide (|v| > 1/100)) = true
    · rw [if_pos hcond, if_pos (le_of_lt hv)]
    · rw [if_neg hcond] at hne
      exact absurd rfl hne
  · intro hv hne
    unfold steerEffect at hne ⊢
    by_cases hcond : (isFlight m || isRobot m || decide (|v| > 1/100)) = true
    · rw [if_pos hcond, if_neg (not_le.mpr hv)]
    · rw [if_neg hcond] at hne
      exact absurd rfl hne

/-- C6 (witness): at velocity `0`, a left turn changes nothing in Car mode
but does change the heading in Flight mode; and at velocity `1` in Car
mode the effective steer sign is `1`. -/
theorem c6_steering_witness :
    stepHeading Mode.car ⟨false, false, true, false⟩ 0 0 = 0 ∧
    stepHeading Mode.flight ⟨false, false, true, false⟩ 0 0 ≠ 0 ∧
    steerEffect Mode.car 1 = 1 := by
  refine ⟨(c6_steering Mode.car ⟨false, false, true, false⟩ 0 0).1,
    (c6_steering Mode.flight ⟨false, false, true, false⟩ 0 0).2.1 (Or.inl rfl) (by decide),
    (c6_steering Mode.car ⟨false, false, true, false⟩ 1 0).2.2.2.1 (by norm_num) ?_⟩
  norm_num [steerEffect, isFlight, isRobot]

/-- C7: with no movement key held a step multiplies the velocity by the
deceleration factor `0.95`; over `n` key-free frames the velocity is
`v·0.95ⁿ`, its magnitude is monotonically nonincreasing (strictly while
nonzero), its sign never flips, and it eventually drops below any positive
bound. -/
theorem c7_deceleration (m : Mode) (k : Keys) (v : ℚ) (n : ℕ) :
    (k.forward = false → k.backward = false → stepVelocity m k v = v * (19/20)) ∧
    coast m n v = v * (19/20) ^ n ∧
    |coast m (n + 1) v| ≤ |coast m n v| ∧
    (v ≠ 0 → |coast m (n + 1) v| < |coast m n v|) ∧
    (0 < v → 0 < coast m n v) ∧
    (v < 0 → coast m n v < 0) ∧
    (v = 0 → coast m n v = 0) ∧
    (∀ ε : ℚ, 0 < ε → ∃ N, |coast m N v| < ε) := by
  have hc := coast_eq m v
  have hpow : ∀ j : ℕ, (0:ℚ) < (19/20) ^ j := fun j => pow_pos (by norm_num) j
  have h9 : |(19/20 : ℚ)| = 19/20 := by norm_num
  refine ⟨stepVelocity_coast m k v, hc n, ?_, ?_, ?_, ?_, ?_, ?_⟩
  · rw [hc n, hc (n + 1), abs_mul, abs_mul, abs_pow, abs_pow, h9]
    nlinarith [abs_nonneg v, hpow n, pow_succ (19/20 : ℚ) n]
  · intro hv
    rw [hc n, hc (n + 1), abs_mul, abs_mul, abs_pow, abs_pow, h9]
    have habs : 0 < |v| := abs_pos.mpr hv
    nlinarith [hpow n, pow_succ (19/20 : ℚ) n]
  · intro hv
    rw [hc n]
    exact mul_pos hv (hpow n)
  · intro hv
    rw [hc n]
    exact mul_neg_of_neg_of_pos hv (hpow n)
  · intro hv
    rw [hc n, hv]
    ring
  · intro ε hε
    have hv1 : (0:ℚ) < |v| + 1 := by positivity
    obtain ⟨N, hN⟩ :=
      exists_pow_lt_of_lt_one (div_pos hε hv1) (by norm_num : (19/20:ℚ) < 1)
    refine ⟨N, ?_⟩
    rw [hc N, abs_mul, abs_pow, h9]
    have hlt : (|v| + 1) * ((19/20:ℚ)) ^ N < (|v| + 1) * (ε / (|v| + 1)) :=
      mul_lt_mul_of_pos_left hN hv1
    have hcancel : (|v| + 1) * (ε / (|v| + 1)) = ε := by field_simp
    rw [hcancel] at hlt
    nlinarith [abs_nonneg v, hpow N]

/-- C7 (witness): one key-free step in Car mode from velocity `1` gives
`0.95`, and coasting eventually drops below `1/2`. -/
theorem c7_deceleration_witness :
    stepVelocity Mode.car ⟨false, false, false, false⟩ 1 = 1 * (19/20) ∧
    (0 : ℚ) < coast Mode.car 3 1 ∧
    ∃ N, |coast Mode.car N 1| < 1/2 := by
  refine ⟨(c7_deceleration Mode.car ⟨false, false, false, false⟩ 1 3).1 rfl rfl,
    (c7_deceleration Mode.car ⟨false, false, false, false⟩ 1 3).2.2.2.2.1 (by norm_num),
    (c7_deceleration Mode.car ⟨false, false, false, false⟩ 1 3).2.2.2.2.2.2.2
      (1/2) (by norm_num)⟩

/-- C9: a part whose pose spec omits the Flight entry gets its Car entry as
the Flight-mode target position and orientation (the fallback), while a
part that provides a Flight entry gets that entry. -/
theorem c9_flight_fallback (carP robotP carR robotR fp fr : V3) :
    targetPosition Mode.flight carP robotP none =
      targetPosition Mode.car carP robotP none ∧
    targetPosition Mode.flight carP robotP none = carP ∧
    targetEuler Mode.flight carR robotR none =
      targetEuler Mode.car carR robotR none ∧
    targetEuler Mode.flight carR robotR none = carR ∧
    targetPosition Mode.flight carP robotP (some fp) = fp ∧
    targetEuler Mode.flight carR robotR (some fr) = fr := by
  simp [targetPosition, targetEuler, isRobot, isFlight]

/-- C2 (counterexample): the source computes `lerpSpeed = 4 * delta` with no
`min(1, ·)` clamp, so for `delta = 1` the position update overshoots the
target: from `(0,0,0)` toward `(1,0,0)` it lands at `(4,0,0)`, and the
squared distance to the target grows from `1` to `9` instead of strictly
decreasing. -/
theorem c2_counterexample :
    distSq ⟨0, 0, 0⟩ ⟨1, 0, 0⟩ <
      distSq (partStepPosition ⟨0, 0, 0⟩ ⟨1, 0, 0⟩ 1) ⟨1, 0, 0⟩ := by
  norm_num [distSq, partStepPosition, V3.lerpTo, lerpSpeed]

/-- C2 (amended): the per-frame smoothing factor is `4·dt` with no clamp;
for any frame with `0 < dt < 1/4` (so the factor lies in `(0,1)`) and a
fixed target, the squared distance to the target contracts by the exact
factor `(1 - 4·dt)²`, strictly decreases while the position differs from
the target, and each coordinate stays between its old value and the
target's (no overshoot, hence no discontinuous jump on a mode switch). -/
theorem c2_position_smoothing (p t : V3) (δ : ℚ) (h0 : 0 < δ) (h1 : δ < 1/4) :
    distSq (partStepPosition p t δ) t = (1 - 4 * δ) ^ 2 * distSq p t ∧
    (p ≠ t → distSq (partStepPosition p t δ) t < distSq p t) ∧
    min p.x t.x ≤ (partStepPosition p t δ).x ∧
    (partStepPosition p t δ).x ≤ max p.x t.x ∧
    min p.y t.y ≤ (partStepPosition p t δ).y ∧
    (partStepPosition p t δ).y ≤ max p.y t.y ∧
    min p.z t.z ≤ (partStepPosition p t δ).z ∧
    (partStepPosition p t δ).z ≤ max p.z t.z := by
  have heq : distSq (partStepPosition p t δ) t = (1 - 4 * δ) ^ 2 * distSq p t := by
    simp only [partStepPosition, V3.lerpTo, lerpSpeed, distSq]
    ring
  have ha0 : (0:ℚ) ≤ 4 * δ := by linarith
  have ha1 : 4 * δ ≤ 1 := by linarith
  have hbx := lerp_between p.x t.x (4 * δ) ha0 ha1
  have hby := lerp_between p.y t.y (4 * δ) ha0 ha1
  have hbz := lerp_between p.z t.z (4 * δ) ha0 ha1
  refine ⟨heq, ?_, ?_, ?_, ?_, ?_, ?_, ?_⟩
  · intro hne
    have hpos : 0 < distSq p t :=
      lt_of_le_of_ne (distSq_nonneg p t)
        (fun h => hne ((distSq_eq_zero_iff p t).mp h.symm))
    have hsq : (1 - 4 * δ) ^ 2 < 1 := by
      nlinarith [mul_pos h0 (show (0:ℚ) < 1 - 2 * δ by linarith)]
    rw [heq]
    calc (1 - 4 * δ) ^ 2 * distSq p t < 1 * distSq p t :=
          mul_lt_mul_of_pos_right hsq hpos
      _ = distSq p t := one_mul _
  · simpa only [partStepPosition, V3.lerpTo, lerpSpeed] using hbx.1
  · simpa only [partStepPosition, V3.lerpTo, lerpSpeed] using hbx.2
  · simpa only [partStepPosition, V3.lerpTo, lerpSpeed] using hby.1
  · simpa only [partStepPosition, V3.lerpTo, lerpSpeed] using hby.2
  · simpa only [partStepPosition, V3.lerpTo, lerpSpeed] using hbz.1
  · simpa only [partStepPosition, V3.lerpTo, lerpSpeed] using hbz.2

/-- C2 (witness): one smoothing step at `dt = 1/8` from `(0,0,0)` toward
`(1,0,0)` strictly decreases the squared distance. -/
theorem c2_position_smoothing_witness :
    distSq (partStepPosition ⟨0, 0, 0⟩ ⟨1, 0, 0⟩ (1/8)) ⟨1, 0, 0⟩ <
      distSq ⟨0, 0, 0⟩ ⟨1, 0, 0⟩ :=
  (c2_position_smoothing ⟨0, 0, 0⟩ ⟨1, 0, 0⟩ (1/8) (by norm_num) (by norm_num)).2.1
    (by intro h; exact absurd (congrArg V3.x h) (by norm_num))

/-- C3: for a wheel part the spin rotation is written to `dynamicQ` exactly
when the mode is not Robot; for a door part the flapping rotation is
written exactly in Flight mode; and the fixed open-angle (scissor)
rotation is written exactly in Car mode with the door open — the last
under the door invariant (the door flag is only set in Car mode, the
reachability invariant of the state machine). -/
theorem c3_secondary_rotation (m : Mode) (d : Bool) (w : ℚ)
    (hinv : m ≠ Mode.car → d = false) :
    (dynamicRot "wheel" (isFlight m) (isRobot m) d w = DynRot.spin w ↔ m ≠ Mode.robot) ∧
    (dynamicRot "door_left" (isFlight m) (isRobot m) d w = DynRot.flap true ↔
      m = Mode.flight) ∧
    (dynamicRot "door_right" (isFlight m) (isRobot m) d w = DynRot.flap false ↔
      m = Mode.flight) ∧
    (dynamicRot "door_left" (isFlight m) (isRobot m) d w = DynRot.scissor true ↔
      m = Mode.car ∧ d = true) ∧
    (dynamicRot "door_right" (isFlight m) (isRobot m) d w = DynRot.scissor false ↔
      m = Mode.car ∧ d = true) := by
  cases m <;> cases d <;>
    simp_all [dynamicRot, stringIncludes_wheel, stringIncludes_door_left,
      stringIncludes_door_right, isFlight, isRobot]

/-- C3 (witness): in Car mode with the door open, the wheel spins and the
left door takes the scissor open-angle rotation. -/
theorem c3_secondary_rotation_witness :
    dynamicRot "wheel" (isFlight Mode.car) (isRobot Mode.car) true 5 = DynRot.spin 5 ∧
    dynamicRot "door_left" (isFlight Mode.car) (isRobot Mode.car) true 5 =
      DynRot.scissor true :=
  ⟨(c3_secondary_rotation Mode.car true 5 (fun h => absurd rfl h)).1.mpr (by decide),
   (c3_secondary_rotation Mode.car true 5 (fun h => absurd rfl h)).2.2.2.1.mpr ⟨rfl, rfl⟩⟩

end CarTransformer
